import Mathlib

unseal Rat.add Rat.sub Rat.mul Rat.inv

/-!
Shallow embedding of the igaming-balance-backend ledger engine.

The Go repository keeps a per-account balance derived from an append-only,
soft-deletable ledger of transactions, backed by Postgres.  We embed:

* the domain model (internal/domain/tx.go, internal/domain/balance.go),
* the SQL queries and schema constraints (db/migrations/000001_init.up.sql,
  db/queries — check constraint amount >= 0 on balances, global uniqueness
  of tx_id, soft delete via deleted_at),
* the storage layer (internal/storage/balances.go: RecordTx, CancelTxs,
  RecentTxs, PreviousTxs, OpenBalance, Balance), where every operation is a
  single database transaction that commits on success and rolls back on any
  error path (the deferred Rollback in the Go code),
* the wire-to-domain mapping (internal/transform) and the service layer
  error mapping and ListTx pagination (internal/service).

Machine state is a pair of row lists; amounts are exact rationals, which is
faithful to the arbitrary-precision shopspring decimal and Postgres numeric
types.  UUIDs are modelled as naturals: the only operations the code performs
on them are equality, ordering (tx_id DESC, tx_id < cursor) and parsing,
which naturals support.
-/

/-- Source enumeration from internal/domain/tx.go (SourceUnknown = 0). -/
inductive Source where
  | unknown
  | game
  | payment
  | service
deriving DecidableEq, Repr

/-- State enumeration from internal/domain/tx.go (StateUnknown = 0). -/
inductive State where
  | unknown
  | deposit
  | withdraw
deriving DecidableEq, Repr

/-- A transaction row; fields follow domain.Tx and the txs table of
000001_init.up.sql (created_at, nullable deleted_at, tx_id, balance_id,
source, state, amount). Timestamps are abstract ticks. -/
structure Tx where
  createdAt : Nat
  deletedAt : Option Nat
  txID : Nat
  balanceID : Nat
  source : Source
  state : State
  amount : ℚ
deriving DecidableEq, Repr

/-- A balance row; fields follow domain.Balance and the balances table. -/
structure BalanceRow where
  balanceID : Nat
  amount : ℚ
deriving DecidableEq, Repr

/-- The persistent state: the two tables of 000001_init.up.sql. -/
structure DB where
  balances : List BalanceRow
  txs : List Tx
deriving DecidableEq, Repr

/-- Structured Postgres constraint errors the storage layer classifies:
23505 (unique_violation) and 23514 (check_violation). -/
inductive PgErr where
  | uniqueViolation
  | checkViolation
deriving DecidableEq, Repr

/-- Storage-level error taxonomy of internal/storage (ErrNotFound,
ErrAlreadyExists, ErrNegativeBalance) plus a generic wrapped error. -/
inductive StorageErr where
  | notFound
  | alreadyExists
  | negativeBalance
  | internalErr
deriving DecidableEq, Repr

/-- Query InsertTx parameters (db.InsertTxParams): the fields TxToPgx keeps. -/
structure InsertTxParams where
  txID : Nat
  balanceID : Nat
  source : Source
  state : State
  amount : ℚ
deriving DecidableEq, Repr

/-- transform.TxToPgx: drops the timestamps, keeps the rest. -/
def TxToPgx (tx : Tx) : InsertTxParams :=
  { txID := tx.txID
    balanceID := tx.balanceID
    source := tx.source
    state := tx.state
    amount := tx.amount }

/-- Query InsertTx: insert into txs; created_at defaults to now(),
deleted_at defaults to null; the unique constraint on tx_id (also the
primary key) rejects a duplicate transaction id with 23505. -/
def insertTx (db : DB) (now : Nat) (p : InsertTxParams) : Except PgErr DB :=
  if db.txs.any (fun r => r.txID == p.txID) then
    .error .uniqueViolation
  else
    .ok { db with
          txs := db.txs ++
            [{ createdAt := now, deletedAt := none, txID := p.txID,
               balanceID := p.balanceID, source := p.source,
               state := p.state, amount := p.amount }] }

/-- Query UpdateBalance: update balances set amount = amount + d where
balance_id = bid; returns the affected row count; the check (amount >= 0)
constraint aborts the statement with 23514 if any updated row would go
negative. -/
def updateBalance (db : DB) (bid : Nat) (d : ℚ) : Except PgErr (DB × Nat) :=
  if (db.balances.filter (fun b => b.balanceID == bid)).any
      (fun b => decide (b.amount + d < 0)) then
    .error .checkViolation
  else
    .ok ({ db with
           balances := db.balances.map (fun b =>
             if b.balanceID == bid then { b with amount := b.amount + d } else b) },
         (db.balances.filter (fun b => b.balanceID == bid)).length)

/-- Query TxsByID: select * from txs where balance_id = bid and
tx_id = any(ids); no filter on deleted_at. -/
def txsByID (db : DB) (bid : Nat) (txIDs : List Nat) : List Tx :=
  db.txs.filter (fun r => r.balanceID == bid && txIDs.contains r.txID)

/-- Query DeleteTxs: update txs set deleted_at = now() where balance_id = bid
and tx_id = any(ids) and deleted_at is null; returns the affected row count
(only still-active rows are marked). -/
def deleteTxs (db : DB) (now : Nat) (bid : Nat) (txIDs : List Nat) : DB × Nat :=
  ({ db with
     txs := db.txs.map (fun r =>
       if r.balanceID == bid && txIDs.contains r.txID && r.deletedAt == none then
         { r with deletedAt := some now }
       else r) },
   (db.txs.filter (fun r =>
       r.balanceID == bid && txIDs.contains r.txID && r.deletedAt == none)).length)

/-- Descending order on transaction identifiers (order by tx_id desc). -/
def txIdGe (a b : Tx) : Prop := b.txID ≤ a.txID

instance : DecidableRel txIdGe := fun a b => Nat.decLe b.txID a.txID

instance : IsTotal Tx txIdGe :=
  ⟨fun a b => (Nat.le_total b.txID a.txID).imp id id⟩

instance : IsTrans Tx txIdGe :=
  ⟨fun _ _ _ hab hbc => Nat.le_trans hbc hab⟩

/-- Query RecentTxs: select * from txs where balance_id = bid and
(deleted_at is null or include_deleted) order by tx_id desc limit n. -/
def recentTxsQuery (db : DB) (bid : Nat) (includeDeleted : Bool) (limit : Nat) :
    List Tx :=
  ((db.txs.filter (fun r =>
      r.balanceID == bid && (r.deletedAt == none || includeDeleted))).insertionSort
    txIdGe).take limit

/-- Query PreviousTxs: as RecentTxs with the extra keyset bound
tx_id < before. -/
def previousTxsQuery (db : DB) (bid : Nat) (includeDeleted : Bool)
    (before : Nat) (limit : Nat) : List Tx :=
  ((db.txs.filter (fun r =>
      r.balanceID == bid && r.txID < before &&
        (r.deletedAt == none || includeDeleted))).insertionSort
    txIdGe).take limit

/-- Query OpenBalance: insert into balances (balance_id, amount) values
(bid, 0); the unique constraint on balance_id rejects a duplicate with
23505. -/
def openBalanceQuery (db : DB) (bid : Nat) : Except PgErr DB :=
  if db.balances.any (fun b => b.balanceID == bid) then
    .error .uniqueViolation
  else
    .ok { db with balances := db.balances ++ [{ balanceID := bid, amount := 0 }] }

/-- Query Balance: select balance_id, amount from balances where
balance_id = bid; none models pgx.ErrNoRows. -/
def balanceQuery (db : DB) (bid : Nat) : Option BalanceRow :=
  db.balances.find? (fun b => b.balanceID == bid)

/-- The first matching balance amount, for stating claims. -/
def balanceOf (db : DB) (bid : Nat) : Option ℚ :=
  (balanceQuery db bid).map (fun b => b.amount)

/-- The signed delta RecordTx applies: +amount, negated for withdraw
(storage.Balances.RecordTx: balanceChange := tx.Amount; if withdraw, Neg). -/
def recordDelta (tx : Tx) : ℚ :=
  if tx.state == State.withdraw then -tx.amount else tx.amount

namespace Storage

/-- storage.Balances.RecordTx: one database transaction that locks the
account, applies the signed delta to the balance row (NotFound when no row
was updated, NegativeBalance on check violation 23514), then inserts the
transaction row (AlreadyExists on unique violation 23505), and commits.
Every error path rolls back, so an error leaves the state unchanged. -/
def RecordTx (db : DB) (now : Nat) (tx : Tx) : Except StorageErr DB :=
  match updateBalance db tx.balanceID (recordDelta tx) with
  | .error .checkViolation => .error .negativeBalance
  | .error .uniqueViolation => .error .internalErr
  | .ok (db1, updated) =>
    if updated == 0 then .error .notFound
    else
      match insertTx db1 now (TxToPgx tx) with
      | .error .uniqueViolation => .error .alreadyExists
      | .error .checkViolation => .error .internalErr
      | .ok db2 => .ok db2

/-- The aggregate reversing delta of storage.Balances.CancelTxs: starting
from zero, subtract deposit amounts and add withdraw amounts; an unknown
state aborts with a generic error, as in the Go switch default. -/
def cancelDelta (acc : ℚ) : List Tx → Option ℚ
  | [] => some acc
  | t :: ts =>
    match t.state with
    | State.deposit => cancelDelta (acc - t.amount) ts
    | State.withdraw => cancelDelta (acc + t.amount) ts
    | State.unknown => none

/-- storage.Balances.CancelTxs: one database transaction that locks the
account, fetches the requested rows regardless of cancellation status
(NotFound when none match), computes the aggregate reversing delta, applies
it to the balance (NegativeBalance on 23514, NotFound when no row updated),
then marks the still-active fetched rows cancelled — the Go code discards
the DeleteTxs affected-row count — and commits. -/
def CancelTxs (db : DB) (now : Nat) (bid : Nat) (txIDs : List Nat) :
    Except StorageErr DB :=
  if (txsByID db bid txIDs).isEmpty then .error .notFound
  else
    match cancelDelta 0 (txsByID db bid txIDs) with
    | none => .error .internalErr
    | some balanceChange =>
      match updateBalance db bid balanceChange with
      | .error .checkViolation => .error .negativeBalance
      | .error .uniqueViolation => .error .internalErr
      | .ok (db1, updated) =>
        if updated == 0 then .error .notFound
        else .ok (deleteTxs db1 now bid txIDs).1

/-- storage.Balances.RecentTxs: runs the RecentTxs query and converts rows
with transform.TxFromPgx, which is the identity on fields. -/
def RecentTxs (db : DB) (bid : Nat) (includeDeleted : Bool) (limit : Nat) :
    List Tx :=
  recentTxsQuery db bid includeDeleted limit

/-- storage.Balances.PreviousTxs: runs the PreviousTxs query and converts
rows with transform.TxFromPgx, the identity on fields. -/
def PreviousTxs (db : DB) (bid : Nat) (includeDeleted : Bool) (before : Nat)
    (limit : Nat) : List Tx :=
  previousTxsQuery db bid includeDeleted before limit

/-- storage.Balances.OpenBalance: unique violation 23505 becomes
AlreadyExists. -/
def OpenBalance (db : DB) (bid : Nat) : Except StorageErr DB :=
  match openBalanceQuery db bid with
  | .error .uniqueViolation => .error .alreadyExists
  | .error .checkViolation => .error .internalErr
  | .ok db1 => .ok db1

/-- storage.Balances.Balance: pgx.ErrNoRows becomes NotFound. -/
def Balance (db : DB) (bid : Nat) : Except StorageErr BalanceRow :=
  match balanceQuery db bid with
  | none => .error .notFound
  | some row => .ok row

end Storage

/-- The state a caller observes after a storage mutation: the committed
state on success, the unchanged input state on error (the Go code rolls the
transaction back on every error path before returning). -/
def afterOp (db : DB) (r : Except StorageErr DB) : DB :=
  match r with
  | .ok db2 => db2
  | .error _ => db

/-- A mutating call against the store, for stating sequence invariants. -/
inductive Op where
  | record (now : Nat) (tx : Tx)
  | cancel (now : Nat) (bid : Nat) (txIDs : List Nat)
deriving Repr

/-- Observable state after one RecordTx or CancelTxs call (committed or
rolled back). -/
def applyOp (db : DB) : Op → DB
  | .record now tx => afterOp db (Storage.RecordTx db now tx)
  | .cancel now bid txIDs => afterOp db (Storage.CancelTxs db now bid txIDs)

/-- Observable state after a sequence of mutating calls. -/
def applyOps (db : DB) (ops : List Op) : DB :=
  ops.foldl applyOp db

/-- The store invariant: every balance row is non-negative (the check
constraint of the balances table). -/
def StoreInv (db : DB) : Prop :=
  ∀ b ∈ db.balances, 0 ≤ b.amount

instance (db : DB) : Decidable (StoreInv db) :=
  inferInstanceAs (Decidable (∀ b ∈ db.balances, 0 ≤ b.amount))

/-!
Wire-to-domain mapping (internal/transform) and the service layer
(internal/service).  The protobuf request carries string identifiers, a
nested Decimal message for the amount (a message pointer, hence nullable),
and integer-coded enums.  Scalar fields are read through nil-safe getters in
the Go code; the amount message is dereferenced directly, which we model by
making the field an Option and returning none (a panic) when the Go code
would dereference nil.
-/

/-- The balance.v1.Decimal message: a decimal string. -/
structure ProtoDecimal where
  value : String
deriving DecidableEq, Repr

/-- The balance.v1.RecordTxRequest message.  The amount field is a message
pointer in Go, hence Option here. -/
structure RecordTxRequest where
  balanceId : String
  txId : String
  source : Nat
  state : Nat
  amount : Option ProtoDecimal
deriving DecidableEq, Repr

/-- The balance.v1.BalanceResponse message. -/
structure BalanceResponse where
  balanceId : String
  amount : Option ProtoDecimal
deriving DecidableEq, Repr

/-- The balance.v1.ListTxRequest message after identifier parsing: the
service has already turned balance_id and page_token into identifiers, and
an empty page_token is none. -/
structure ListTxRequest where
  balanceID : Nat
  pageSize : Nat
  pageToken : Option Nat
  includeDeleted : Bool
deriving DecidableEq, Repr

/-- The balance.v1.ListTxResponse message; an empty next_page_token is
none. -/
structure ListTxResponse where
  txs : List Tx
  nextPageToken : Option Nat
deriving DecidableEq, Repr

/-- transform error taxonomy (ErrInvalidBalanceID, ErrInvalidTxID,
ErrInvalidSource, ErrInvalidState, ErrInvalidAmount). -/
inductive TransformErr where
  | invalidBalanceID
  | invalidTxID
  | invalidSource
  | invalidState
  | invalidAmount
deriving DecidableEq, Repr

/-- The wire Source enum values 0..3 mapped into the domain enumeration
(the Go code casts the integer directly; 0 is the unspecified sentinel). -/
def Source.ofWire : Nat → Source
  | 1 => .game
  | 2 => .payment
  | 3 => .service
  | _ => .unknown

/-- The wire State enum values 0..2 mapped into the domain enumeration. -/
def State.ofWire : Nat → State
  | 1 => .deposit
  | 2 => .withdraw
  | _ => .unknown

/-- Digit string to number, most significant first. -/
def digitsToNat (cs : List Char) : Nat :=
  cs.foldl (fun n c => 10 * n + (c.toNat - 48)) 0

/-- Models the external uuid.Parse on a simplified identifier alphabet:
identifiers are nonempty digit strings standing for UUIDs; anything else is
a parse error.  The claims use identifiers only for equality, ordering and
parse success or failure, which this model preserves. -/
def parseUUID (s : String) : Option Nat :=
  if s.length != 0 && s.data.all Char.isDigit then some (digitsToNat s.data)
  else none

/-- Unsigned part of a decimal string: digits with an optional dot and
fractional digits. -/
def parseUnsignedDecimal (cs : List Char) : Option ℚ :=
  let intPart := cs.takeWhile Char.isDigit
  let rest := cs.dropWhile Char.isDigit
  if intPart.isEmpty then none
  else
    match rest with
    | [] => some (digitsToNat intPart : ℚ)
    | '.' :: frac =>
      if frac.isEmpty || !frac.all Char.isDigit then none
      else some ((digitsToNat intPart : ℚ) +
        (digitsToNat frac : ℚ) / (10 : ℚ) ^ frac.length)
    | _ => none

/-- Models the external decimal.NewFromString on the fragment the claims
exercise: an optional sign, then digits with an optional fractional part,
parsed exactly (arbitrary precision, no rounding).  Any sign is accepted;
the parser does not restrict the value to be positive. -/
def parseDecimal (s : String) : Option ℚ :=
  match s.data with
  | [] => none
  | '-' :: rest => (parseUnsignedDecimal rest).map (fun q => -q)
  | '+' :: rest => parseUnsignedDecimal rest
  | cs => parseUnsignedDecimal cs

/-- transform.TxFromProto: rejects the unspecified source and state
sentinels, parses both identifiers and the amount string; the checks run in
source order.  The amount message is dereferenced without a nil-safe getter
in the Go code (tx.Amount.Value), so a missing amount message is a panic,
modelled as none; every other outcome is some. -/
def TxFromProto (req : RecordTxRequest) : Option (Except TransformErr Tx) :=
  if req.source == 0 then some (.error .invalidSource)
  else if req.state == 0 then some (.error .invalidState)
  else
    match parseUUID req.balanceId with
    | none => some (.error .invalidBalanceID)
    | some balanceID =>
      match parseUUID req.txId with
      | none => some (.error .invalidTxID)
      | some txID =>
        match req.amount with
        | none => none
        | some a =>
          match parseDecimal a.value with
          | none => some (.error .invalidAmount)
          | some amount =>
            some (.ok { createdAt := 0, deletedAt := none, txID := txID,
                        balanceID := balanceID,
                        source := Source.ofWire req.source,
                        state := State.ofWire req.state, amount := amount })

/-- transform.BalanceFromProto: parses the identifier, then dereferences
the amount message without a nil-safe getter (proto.Amount.Value), so a
missing amount message is a panic, modelled as none. -/
def BalanceFromProto (proto : BalanceResponse) :
    Option (Except TransformErr BalanceRow) :=
  match parseUUID proto.balanceId with
  | none => some (.error .invalidBalanceID)
  | some balanceID =>
    match proto.amount with
    | none => none
    | some a =>
      match parseDecimal a.value with
      | none => some (.error .invalidAmount)
      | some amount => some (.ok { balanceID := balanceID, amount := amount })

/-- Externally visible RPC error categories the service layer produces. -/
inductive Code where
  | invalidArgument
  | notFound
  | alreadyExists
  | internalCode
deriving DecidableEq, Repr

namespace Service

/-- service.Balances.ListTx after identifier parsing: an empty page token
selects the most recent page via the store's RecentTxs; a non-empty one
selects the page strictly before the token via PreviousTxs; an empty result
carries an empty next_page_token, otherwise the token is the last returned
transaction id. -/
def pageTxs (db : DB) (req : ListTxRequest) : List Tx :=
  match req.pageToken with
  | none => Storage.RecentTxs db req.balanceID req.includeDeleted req.pageSize
  | some before =>
    Storage.PreviousTxs db req.balanceID req.includeDeleted before req.pageSize

/-- Builds the ListTx response from the fetched page: an empty page carries
an empty next_page_token, otherwise the token is the last item's id. -/
def ListTx (db : DB) (req : ListTxRequest) : ListTxResponse :=
  match (pageTxs db req).getLast? with
  | none => { txs := [], nextPageToken := none }
  | some t => { txs := pageTxs db req, nextPageToken := some t.txID }

/-- service.Balances.RecordTx: maps the request through TxFromProto
(transform errors become InvalidArgument), calls the store, and translates
store errors (NotFound, AlreadyExists, NegativeBalance as InvalidArgument,
anything else Internal).  A panic in the mapping propagates as none. -/
def RecordTx (db : DB) (now : Nat) (req : RecordTxRequest) :
    Option (Except Code DB) :=
  match TxFromProto req with
  | none => none
  | some (.error _) => some (.error .invalidArgument)
  | some (.ok tx) =>
    match Storage.RecordTx db now tx with
    | .ok db2 => some (.ok db2)
    | .error .notFound => some (.error .notFound)
    | .error .alreadyExists => some (.error .alreadyExists)
    | .error .negativeBalance => some (.error .invalidArgument)
    | .error .internalErr => some (.error .internalCode)

/-- service.Balances.CancelTxs error translation: NotFound and
NegativeBalance (as InvalidArgument) are surfaced; anything else is
Internal. -/
def CancelTxs (db : DB) (now : Nat) (bid : Nat) (txIDs : List Nat) :
    Option (Except Code DB) :=
  if txIDs.isEmpty then some (.error .invalidArgument)
  else
    match Storage.CancelTxs db now bid txIDs with
    | .ok db2 => some (.ok db2)
    | .error .notFound => some (.error .notFound)
    | .error .negativeBalance => some (.error .invalidArgument)
    | .error .alreadyExists => some (.error .internalCode)
    | .error .internalErr => some (.error .internalCode)

end Service

deriving instance DecidableEq for Except

/-!
Helper lemmas about the query layer, shared by the claim theorems.
-/

/-- An error from UpdateBalance is always the check violation, and it
happens exactly when some matching row would go negative. -/
theorem updateBalance_error_iff (db : DB) (bid : Nat) (d : ℚ) :
    (∃ e, updateBalance db bid d = .error e) ↔
      ∃ b ∈ db.balances, b.balanceID = bid ∧ b.amount + d < 0 := by
  unfold updateBalance
  constructor
  · rintro ⟨e, he⟩
    split at he
    · rename_i hany
      rw [List.any_eq_true] at hany
      obtain ⟨b, hb, hlt⟩ := hany
      rw [List.mem_filter] at hb
      exact ⟨b, hb.1, by simpa using hb.2, by simpa using hlt⟩
    · exact absurd he (by simp)
  · rintro ⟨b, hb, hbid, hlt⟩
    refine ⟨.checkViolation, ?_⟩
    rw [if_pos]
    rw [List.any_eq_true]
    exact ⟨b, List.mem_filter.mpr ⟨hb, by simpa using hbid⟩, by simpa using hlt⟩

/-- Whether l has any element satisfying p, as a proposition. -/
theorem any_eq_false_forall {α : Type} (l : List α) (p : α → Bool)
    (h : ¬ l.any p = true) : ∀ x ∈ l, ¬ p x = true := by
  rw [Bool.not_eq_true, List.any_eq_false] at h
  exact h

/-- What a successful UpdateBalance did: matching rows shifted by the
delta, everything else untouched, the count is the number of matching rows,
and no shifted row is negative. -/
theorem updateBalance_ok (db : DB) (bid : Nat) (d : ℚ) (db' : DB) (c : Nat)
    (h : updateBalance db bid d = .ok (db', c)) :
    db'.balances = db.balances.map (fun b =>
        if b.balanceID == bid then { b with amount := b.amount + d } else b) ∧
      db'.txs = db.txs ∧
      c = (db.balances.filter (fun b => b.balanceID == bid)).length ∧
      ∀ b ∈ db.balances, b.balanceID = bid → 0 ≤ b.amount + d := by
  unfold updateBalance at h
  split at h
  · exact absurd h (by simp)
  · rename_i hany
    rw [Except.ok.injEq, Prod.mk.injEq] at h
    obtain ⟨hdb, hc⟩ := h
    subst hdb
    refine ⟨rfl, rfl, hc.symm, ?_⟩
    intro b hb hbid
    have := any_eq_false_forall _ _ hany b
      (List.mem_filter.mpr ⟨hb, by simpa using hbid⟩)
    simp only [decide_eq_true_eq] at this
    exact le_of_not_lt this

/-- A successful InsertTx appends one fresh row and touches nothing else;
its transaction id was not present before. -/
theorem insertTx_ok (db : DB) (now : Nat) (p : InsertTxParams) (db' : DB)
    (h : insertTx db now p = .ok db') :
    db'.balances = db.balances ∧
      db'.txs = db.txs ++
        [{ createdAt := now, deletedAt := none, txID := p.txID,
           balanceID := p.balanceID, source := p.source, state := p.state,
           amount := p.amount }] ∧
      ∀ r ∈ db.txs, r.txID ≠ p.txID := by
  unfold insertTx at h
  split at h
  · exact absurd h (by simp)
  · rename_i hany
    rw [Except.ok.injEq] at h
    subst h
    refine ⟨rfl, rfl, ?_⟩
    intro r hr
    simpa using any_eq_false_forall _ _ hany r hr

/-- InsertTx rejects a duplicate transaction id with the unique
violation. -/
theorem insertTx_dup (db : DB) (now : Nat) (p : InsertTxParams) (r : Tx)
    (hr : r ∈ db.txs) (hid : r.txID = p.txID) :
    insertTx db now p = .error .uniqueViolation := by
  unfold insertTx
  rw [if_pos]
  rw [List.any_eq_true]
  exact ⟨r, hr, by simpa using hid⟩

/-- DeleteTxs leaves the balances table untouched. -/
theorem deleteTxs_balances (db : DB) (now : Nat) (bid : Nat)
    (txIDs : List Nat) :
    (deleteTxs db now bid txIDs).1.balances = db.balances := rfl

/-- UpdateBalance does not change the number of rows matching the
account. -/
theorem length_filter_map_update (l : List BalanceRow) (bid : Nat) (d : ℚ) :
    ((l.map (fun b =>
        if b.balanceID == bid then { b with amount := b.amount + d } else b)).filter
        (fun b => b.balanceID == bid)).length =
      (l.filter (fun b => b.balanceID == bid)).length := by
  rw [← List.countP_eq_length_filter, ← List.countP_eq_length_filter,
    List.countP_map]
  refine List.countP_congr ?_
  intro b _
  cases hb : (b.balanceID == bid) with
  | true => simp [Function.comp, hb]
  | false => simp [Function.comp, hb]

/-- The first matching row after UpdateBalance is the first matching row
before, shifted by the delta. -/
theorem find?_map_update (l : List BalanceRow) (bid : Nat) (d : ℚ)
    (row : BalanceRow) (h : l.find? (fun b => b.balanceID == bid) = some row) :
    (l.map (fun b =>
        if b.balanceID == bid then { b with amount := b.amount + d } else b)).find?
        (fun b => b.balanceID == bid) =
      some { row with amount := row.amount + d } := by
  induction l with
  | nil => simp at h
  | cons a l ih =>
    rw [List.map_cons]
    cases hb : (a.balanceID == bid) with
    | true =>
      rw [@List.find?_cons_of_pos BalanceRow (fun b => b.balanceID == bid) a l hb] at h
      rw [Option.some.injEq] at h
      subst h
      rw [if_pos rfl]
      rw [@List.find?_cons_of_pos BalanceRow (fun b => b.balanceID == bid)
        ({ balanceID := a.balanceID, amount := a.amount + d } : BalanceRow) _ hb]
    | false =>
      rw [@List.find?_cons_of_neg BalanceRow (fun b => b.balanceID == bid) a l
        (by simp [hb])] at h
      rw [if_neg (show ¬ false = true from Bool.false_ne_true)]
      rw [@List.find?_cons_of_neg BalanceRow (fun b => b.balanceID == bid) a _
        (by simp [hb])]
      exact ih h

/-- Anatomy of a successful RecordTx: the balance update succeeded and
matched at least one row, then the insert succeeded. -/
theorem recordTx_ok_destruct (db : DB) (now : Nat) (tx : Tx) (db2 : DB)
    (h : Storage.RecordTx db now tx = .ok db2) :
    ∃ db1 c, updateBalance db tx.balanceID (recordDelta tx) = .ok (db1, c) ∧
      c ≠ 0 ∧ insertTx db1 now (TxToPgx tx) = .ok db2 := by
  unfold Storage.RecordTx at h
  cases hu : updateBalance db tx.balanceID (recordDelta tx) with
  | error e =>
    rw [hu] at h
    cases e <;> simp at h
  | ok q =>
    obtain ⟨db1, c⟩ := q
    rw [hu] at h
    by_cases hc : c = 0
    · subst hc
      simp at h
    · refine ⟨db1, c, rfl, hc, ?_⟩
      simp only [hc] at h
      rw [if_neg (show ¬ (c == 0) = true by simp [hc])] at h
      cases hi : insertTx db1 now (TxToPgx tx) with
      | error e =>
        rw [hi] at h
        cases e <;> simp at h
      | ok dbx =>
        rw [hi] at h
        simp only [Except.ok.injEq] at h
        rw [h]

/-!
Claim theorems.  Concrete counterexamples and code-bug demonstrations come
first; the general theorems follow.
-/

/-- C1: the claim says a second CancelTxs on an already-cancelled id fails
with NotFound and leaves the balance unchanged, because the marking pass is
supposed to fail when zero rows were actually marked.  The code discards
the DeleteTxs affected-row count, so on an account holding 100 with one
already-cancelled withdraw of 30, re-cancelling that id commits and pushes
the balance to 130; the marking pass affects zero rows yet no NotFound is
raised.  This theorem evaluates the code at that failing input. -/
theorem c1_double_cancel_code_bug :
    Storage.CancelTxs ⟨[⟨1, 100⟩], [⟨1, some 2, 7, 1, Source.game, State.withdraw, 30⟩]⟩
        3 1 [7] =
      .ok ⟨[⟨1, 130⟩], [⟨1, some 2, 7, 1, Source.game, State.withdraw, 30⟩]⟩ ∧
    Storage.CancelTxs ⟨[⟨1, 100⟩], [⟨1, some 2, 7, 1, Source.game, State.withdraw, 30⟩]⟩
        3 1 [7] ≠ .error .notFound ∧
    (deleteTxs ⟨[⟨1, 130⟩], [⟨1, some 2, 7, 1, Source.game, State.withdraw, 30⟩]⟩
        3 1 [7]).2 = 0 := by
  decide

/-- C10: TxFromProto dereferences the amount message without a nil-safe
getter, so a request whose amount field is absent panics (modelled as none)
instead of failing with InvalidAmount, while the same request with the
amount present maps fine; BalanceFromProto has the same non-total access. -/
theorem c10_nil_amount_panics :
    TxFromProto ⟨"1", "5", 1, 1, none⟩ = none ∧
    TxFromProto ⟨"1", "5", 1, 1, some ⟨"100"⟩⟩ =
      some (.ok ⟨0, none, 5, 1, Source.game, State.deposit, 100⟩) ∧
    BalanceFromProto ⟨"1", none⟩ = none ∧
    BalanceFromProto ⟨"1", some ⟨"100"⟩⟩ = some (.ok ⟨1, 100⟩) := by
  decide

/-- C3 counterexample: the claim says the second RecordTx of the same
(account, tx_id) always fails with AlreadyExists.  The store updates the
balance before the uniqueness-checked insert, so retrying a withdraw of the
whole balance fails the non-negativity check first: the second call fails
with NegativeBalance, not AlreadyExists. -/
theorem c3_counterexample :
    Storage.RecordTx ⟨[⟨1, 30⟩], []⟩ 1
        ⟨0, none, 5, 1, Source.payment, State.withdraw, 30⟩ =
      .ok ⟨[⟨1, 0⟩], [⟨1, none, 5, 1, Source.payment, State.withdraw, 30⟩]⟩ ∧
    Storage.RecordTx ⟨[⟨1, 0⟩], [⟨1, none, 5, 1, Source.payment, State.withdraw, 30⟩]⟩ 2
        ⟨0, none, 5, 1, Source.payment, State.withdraw, 30⟩ =
      .error .negativeBalance ∧
    Storage.RecordTx ⟨[⟨1, 0⟩], [⟨1, none, 5, 1, Source.payment, State.withdraw, 30⟩]⟩ 2
        ⟨0, none, 5, 1, Source.payment, State.withdraw, 30⟩ ≠
      .error .alreadyExists := by
  decide

/-- C6 counterexample: the claim says a zero or negative amount string is
never recorded as-is.  TxFromProto has no positivity check and the txs
table has no check constraint on amount, so a deposit of -50 passes the
boundary and is stored with its negative amount (and decreases the
balance). -/
theorem c6_counterexample :
    TxFromProto ⟨"1", "9", 1, 1, some ⟨"-50"⟩⟩ =
      some (.ok ⟨0, none, 9, 1, Source.game, State.deposit, -50⟩) ∧
    Storage.RecordTx ⟨[⟨1, 100⟩], []⟩ 4
        ⟨0, none, 9, 1, Source.game, State.deposit, -50⟩ =
      .ok ⟨[⟨1, 50⟩], [⟨4, none, 9, 1, Source.game, State.deposit, -50⟩]⟩ ∧
    ((-50 : ℚ) < 0) := by
  decide

/-- C7 counterexample: the claim says next_page_token is empty exactly when
the returned page is the final one.  On a ledger with a single transaction,
the first page returns that transaction — the final page — with the
non-empty token some 10; only the follow-up call with that token returns
the empty page and the empty token. -/
theorem c7_counterexample :
    Service.ListTx ⟨[⟨1, 100⟩], [⟨1, none, 10, 1, Source.game, State.deposit, 5⟩]⟩
        ⟨1, 5, none, false⟩ =
      ⟨[⟨1, none, 10, 1, Source.game, State.deposit, 5⟩], some 10⟩ ∧
    Service.ListTx ⟨[⟨1, 100⟩], [⟨1, none, 10, 1, Source.game, State.deposit, 5⟩]⟩
        ⟨1, 5, some 10, false⟩ =
      ⟨[], none⟩ := by
  decide

/-- An UpdateBalance failure is always the check-constraint violation. -/
theorem updateBalance_error_check (db : DB) (bid : Nat) (d : ℚ) (e : PgErr)
    (h : updateBalance db bid d = .error e) : e = PgErr.checkViolation := by
  unfold updateBalance at h
  split at h
  · rw [Except.error.injEq] at h
    exact h.symm
  · exact absurd h (by simp)

/-- C5: when a transaction mapped at the boundary would drive the account
balance below zero, the store fails with NegativeBalance before the
transaction row is ever inserted, the service surfaces it as
InvalidArgument, and the observable state is unchanged. -/
theorem c5_negative_balance_rejected (db : DB) (now : Nat) (tx : Tx)
    (req : RecordTxRequest)
    (h1 : TxFromProto req = some (.ok tx))
    (h2 : ∃ b ∈ db.balances, b.balanceID = tx.balanceID ∧
      b.amount + recordDelta tx < 0) :
    Storage.RecordTx db now tx = .error .negativeBalance ∧
      Service.RecordTx db now req = some (.error .invalidArgument) ∧
      afterOp db (Storage.RecordTx db now tx) = db := by
  obtain ⟨e, he⟩ := (updateBalance_error_iff db tx.balanceID (recordDelta tx)).mpr h2
  have hck := updateBalance_error_check db tx.balanceID (recordDelta tx) e he
  subst hck
  have hs : Storage.RecordTx db now tx = .error .negativeBalance := by
    unfold Storage.RecordTx
    rw [he]
  refine ⟨hs, ?_, ?_⟩
  · unfold Service.RecordTx
    rw [h1]
    simp [hs]
  · rw [hs]
    rfl

/-- C5 witness: scenario C of the specification — an account holding 70,
a service withdraw of 1000 maps at the boundary, the store rejects it with
NegativeBalance, the service answers InvalidArgument, and the balance is
still 70. -/
theorem c5_negative_balance_rejected_witness :
    Storage.RecordTx ⟨[⟨1, 70⟩], []⟩ 9
        ⟨0, none, 3, 1, Source.service, State.withdraw, 1000⟩ =
      .error .negativeBalance ∧
      Service.RecordTx ⟨[⟨1, 70⟩], []⟩ 9 ⟨"1", "3", 3, 2, some ⟨"1000"⟩⟩ =
        some (.error .invalidArgument) ∧
      afterOp ⟨[⟨1, 70⟩], []⟩
          (Storage.RecordTx ⟨[⟨1, 70⟩], []⟩ 9
            ⟨0, none, 3, 1, Source.service, State.withdraw, 1000⟩) =
        ⟨[⟨1, 70⟩], []⟩ :=
  c5_negative_balance_rejected ⟨[⟨1, 70⟩], []⟩ 9
    ⟨0, none, 3, 1, Source.service, State.withdraw, 1000⟩
    ⟨"1", "3", 3, 2, some ⟨"1000"⟩⟩ (by decide)
    ⟨⟨1, 70⟩, by decide, by decide, by decide⟩

/-- C8: a successful RecordTx on an existing account moves the balance by
exactly plus amount for a deposit and minus amount for a withdraw, and a
RecordTx against an account with no balance row fails with NotFound leaving
the state unchanged. -/
theorem c8_record_delta_and_notfound (db : DB) (now : Nat) (tx : Tx) :
    (∀ db1 b, Storage.RecordTx db now tx = .ok db1 →
      balanceOf db tx.balanceID = some b →
      (tx.state = State.deposit →
        balanceOf db1 tx.balanceID = some (b + tx.amount)) ∧
      (tx.state = State.withdraw →
        balanceOf db1 tx.balanceID = some (b - tx.amount))) ∧
    ((∀ row ∈ db.balances, row.balanceID ≠ tx.balanceID) →
      Storage.RecordTx db now tx = .error .notFound ∧
      afterOp db (Storage.RecordTx db now tx) = db) := by
  constructor
  · intro db1 b h hb
    obtain ⟨dbU, c, hu, hc, hi⟩ := recordTx_ok_destruct db now tx db1 h
    obtain ⟨hbal, htxs, hcnt, hpos⟩ :=
      updateBalance_ok db tx.balanceID (recordDelta tx) dbU c hu
    obtain ⟨hbals1, htxs1, hfresh⟩ := insertTx_ok dbU now (TxToPgx tx) db1 hi
    unfold balanceOf balanceQuery at hb ⊢
    rw [Option.map_eq_some'] at hb
    obtain ⟨row, hrow, hamt⟩ := hb
    have hfind := find?_map_update db.balances tx.balanceID (recordDelta tx) row hrow
    rw [hbals1, hbal, hfind]
    constructor
    · intro hst
      have hd : recordDelta tx = tx.amount := by
        unfold recordDelta
        rw [hst]
        rfl
      rw [Option.map_some', Option.some.injEq, hd, hamt]
    · intro hst
      have hd : recordDelta tx = -tx.amount := by
        unfold recordDelta
        rw [hst]
        rfl
      rw [Option.map_some', Option.some.injEq, hd, hamt, sub_eq_add_neg]
  · intro hnone
    have hfil : db.balances.filter (fun b => b.balanceID == tx.balanceID) = [] := by
      rw [List.filter_eq_nil_iff]
      intro a ha
      simpa using hnone a ha
    have hu : updateBalance db tx.balanceID (recordDelta tx) =
        .ok ({ db with balances := db.balances.map (fun b =>
          if b.balanceID == tx.balanceID then
            { b with amount := b.amount + recordDelta tx } else b) }, 0) := by
      unfold updateBalance
      rw [hfil]
      rfl
    have hs : Storage.RecordTx db now tx = .error .notFound := by
      unfold Storage.RecordTx
      rw [hu]
      rfl
    exact ⟨hs, by rw [hs]; rfl⟩

/-- C8 witness: scenarios A and B — a deposit of 100 moves an account from
0 to 100, a withdraw of 30 moves an account from 100 to 70, and recording
against a missing account fails with NotFound without changing anything. -/
theorem c8_record_delta_and_notfound_witness :
    Storage.RecordTx ⟨[⟨1, 0⟩], []⟩ 1
        ⟨0, none, 4, 1, Source.game, State.deposit, 100⟩ =
      .ok ⟨[⟨1, 100⟩], [⟨1, none, 4, 1, Source.game, State.deposit, 100⟩]⟩ ∧
    balanceOf ⟨[⟨1, 100⟩], [⟨1, none, 4, 1, Source.game, State.deposit, 100⟩]⟩ 1 =
      some (0 + 100) ∧
    balanceOf ⟨[⟨1, 70⟩], []⟩ 1 = some ((100 : ℚ) - 30) ∧
    Storage.RecordTx ⟨[⟨1, 0⟩], []⟩ 1
        ⟨0, none, 4, 2, Source.game, State.deposit, 100⟩ =
      .error .notFound := by
  refine ⟨by decide, ?_, by decide, ?_⟩
  · exact ((c8_record_delta_and_notfound ⟨[⟨1, 0⟩], []⟩ 1
      ⟨0, none, 4, 1, Source.game, State.deposit, 100⟩).1
      ⟨[⟨1, 100⟩], [⟨1, none, 4, 1, Source.game, State.deposit, 100⟩]⟩ 0
      (by decide) (by decide)).1 rfl
  · exact ((c8_record_delta_and_notfound ⟨[⟨1, 0⟩], []⟩ 1
      ⟨0, none, 4, 2, Source.game, State.deposit, 100⟩).2 (by decide)).1

/-- Anatomy of a successful CancelTxs: some rows matched, the aggregate
reversing delta was computed, the balance update succeeded and matched at
least one row, and the committed state is the marking pass applied to the
updated state (the marking row count is discarded by the code). -/
theorem cancelTxs_ok_destruct (db : DB) (now : Nat) (bid : Nat)
    (txIDs : List Nat) (db2 : DB)
    (h : Storage.CancelTxs db now bid txIDs = .ok db2) :
    ∃ q db1 c, Storage.cancelDelta 0 (txsByID db bid txIDs) = some q ∧
      updateBalance db bid q = .ok (db1, c) ∧ c ≠ 0 ∧
      db2 = (deleteTxs db1 now bid txIDs).1 := by
  unfold Storage.CancelTxs at h
  split at h
  · exact absurd h (by simp)
  · split at h
    · exact absurd h (by simp)
    · rename_i q hq
      split at h
      · exact absurd h (by simp)
      · exact absurd h (by simp)
      · rename_i db1 c hu
        split at h
        · exact absurd h (by simp)
        · rename_i hc0
          rw [Except.ok.injEq] at h
          exact ⟨q, db1, c, hq, hu, by simpa using hc0, h.symm⟩

/-- A successful UpdateBalance preserves the non-negativity invariant of
the balances table. -/
theorem storeInv_updateBalance (db : DB) (bid : Nat) (d : ℚ) (db' : DB)
    (c : Nat) (h : updateBalance db bid d = .ok (db', c)) (hinv : StoreInv db) :
    StoreInv db' := by
  obtain ⟨hbal, -, -, hpos⟩ := updateBalance_ok db bid d db' c h
  intro b hb
  rw [hbal, List.mem_map] at hb
  obtain ⟨b0, hb0, rfl⟩ := hb
  cases hbid : (b0.balanceID == bid) with
  | true =>
    rw [if_pos rfl]
    exact hpos b0 hb0 (by simpa using hbid)
  | false =>
    rw [if_neg (show ¬ false = true from Bool.false_ne_true)]
    exact hinv b0 hb0

/-- The observable state after a RecordTx call keeps every balance
non-negative. -/
theorem storeInv_recordTx (db : DB) (now : Nat) (tx : Tx)
    (hinv : StoreInv db) :
    StoreInv (afterOp db (Storage.RecordTx db now tx)) := by
  cases h : Storage.RecordTx db now tx with
  | error e => exact hinv
  | ok db2 =>
    obtain ⟨dbU, c, hu, hc, hi⟩ := recordTx_ok_destruct db now tx db2 h
    obtain ⟨hbals1, -, -⟩ := insertTx_ok dbU now (TxToPgx tx) db2 hi
    have hU := storeInv_updateBalance db tx.balanceID (recordDelta tx) dbU c hu hinv
    intro b hb
    rw [show (afterOp db (Except.ok db2)).balances = db2.balances from rfl,
      hbals1] at hb
    exact hU b hb

/-- The observable state after a CancelTxs call keeps every balance
non-negative. -/
theorem storeInv_cancelTxs (db : DB) (now : Nat) (bid : Nat)
    (txIDs : List Nat) (hinv : StoreInv db) :
    StoreInv (afterOp db (Storage.CancelTxs db now bid txIDs)) := by
  cases h : Storage.CancelTxs db now bid txIDs with
  | error e => exact hinv
  | ok db2 =>
    obtain ⟨q, db1, c, hq, hu, hc, hdb2⟩ :=
      cancelTxs_ok_destruct db now bid txIDs db2 h
    have h1 := storeInv_updateBalance db bid q db1 c hu hinv
    intro b hb
    rw [show (afterOp db (Except.ok db2)).balances = db2.balances from rfl,
      hdb2, deleteTxs_balances] at hb
    exact h1 b hb

/-- One mutating call preserves the non-negativity invariant. -/
theorem storeInv_applyOp (db : DB) (op : Op) (hinv : StoreInv db) :
    StoreInv (applyOp db op) := by
  cases op with
  | record now tx => exact storeInv_recordTx db now tx hinv
  | cancel now bid txIDs => exact storeInv_cancelTxs db now bid txIDs hinv

/-- C2: for every sequence of RecordTx and CancelTxs calls starting from a
state whose balances are all non-negative, every balance is still
non-negative after the whole sequence of committed or rolled-back
operations — a mutation whose post-image would be negative is rejected by
the check constraint rather than committed, so no reachable state violates
the invariant. -/
theorem c2_nonneg_invariant (db : DB) (ops : List Op) (hinv : StoreInv db) :
    StoreInv (applyOps db ops) := by
  induction ops generalizing db with
  | nil => exact hinv
  | cons op ops ih => exact ih (applyOp db op) (storeInv_applyOp db op hinv)

/-- C2 witness: a deposit, a cancellation and an over-withdraw attempt on a
concrete account, starting from balance 100, end with all balances
non-negative. -/
theorem c2_nonneg_invariant_witness :
    StoreInv ⟨[⟨1, 100⟩], []⟩ ∧
      StoreInv (applyOps ⟨[⟨1, 100⟩], []⟩
        [Op.record 1 ⟨0, none, 5, 1, Source.game, State.withdraw, 30⟩,
         Op.record 2 ⟨0, none, 6, 1, Source.payment, State.withdraw, 1000⟩,
         Op.cancel 3 1 [5]]) :=
  ⟨by decide, c2_nonneg_invariant ⟨[⟨1, 100⟩], []⟩
    [Op.record 1 ⟨0, none, 5, 1, Source.game, State.withdraw, 30⟩,
     Op.record 2 ⟨0, none, 6, 1, Source.payment, State.withdraw, 1000⟩,
     Op.cancel 3 1 [5]] (by decide)⟩

/-- Assembling a successful CancelTxs from its three checkpoints: a
non-empty fetch, a computed reversing delta, and a balance update that
matched at least one row. -/
theorem cancelTxs_build (db : DB) (now : Nat) (bid : Nat) (txIDs : List Nat)
    (q : ℚ) (dbV : DB) (c : Nat)
    (hne : txsByID db bid txIDs ≠ [])
    (hq : Storage.cancelDelta 0 (txsByID db bid txIDs) = some q)
    (hu : updateBalance db bid q = .ok (dbV, c))
    (hc : c ≠ 0) :
    Storage.CancelTxs db now bid txIDs = .ok (deleteTxs dbV now bid txIDs).1 := by
  unfold Storage.CancelTxs
  rw [if_neg (show ¬ (txsByID db bid txIDs).isEmpty = true by simpa using hne)]
  simp only [hq, hu]
  rw [if_neg (show ¬ (c == 0) = true by simp [hc])]

/-- C4: a successful RecordTx of a deposit or withdraw followed by a
successful CancelTxs of that transaction id restores the account balance to
its pre-RecordTx value exactly — the cancellation always succeeds from a
non-negative state, and the aggregate reversing delta is the additive
inverse of the recording delta, with exact arithmetic. -/
theorem c4_reversibility (db : DB) (now1 now2 : Nat) (tx : Tx) (db1 : DB)
    (hinv : StoreInv db)
    (hstate : tx.state = State.deposit ∨ tx.state = State.withdraw)
    (h : Storage.RecordTx db now1 tx = .ok db1) :
    ∃ db2, Storage.CancelTxs db1 now2 tx.balanceID [tx.txID] = .ok db2 ∧
      balanceOf db2 tx.balanceID = balanceOf db tx.balanceID := by
  obtain ⟨dbU, c, hu, hc, hi⟩ := recordTx_ok_destruct db now1 tx db1 h
  obtain ⟨hbalU, htxsU, hcntU, hposU⟩ :=
    updateBalance_ok db tx.balanceID (recordDelta tx) dbU c hu
  obtain ⟨hbals1, htxs1, hfresh⟩ := insertTx_ok dbU now1 (TxToPgx tx) db1 hi
  simp only [TxToPgx] at htxs1 hfresh
  have hfresh2 : ∀ r ∈ db.txs, r.txID ≠ tx.txID := by
    intro r hr
    exact hfresh r (by rw [htxsU]; exact hr)
  have htxsby : txsByID db1 tx.balanceID [tx.txID] =
      [{ createdAt := now1, deletedAt := none, txID := tx.txID,
         balanceID := tx.balanceID, source := tx.source, state := tx.state,
         amount := tx.amount }] := by
    unfold txsByID
    rw [htxs1, htxsU, List.filter_append]
    rw [List.filter_eq_nil_iff.mpr (fun r hr => by simp [hfresh2 r hr])]
    simp
  have hcd : Storage.cancelDelta 0 (txsByID db1 tx.balanceID [tx.txID]) =
      some (-(recordDelta tx)) := by
    rw [htxsby]
    rcases hstate with hst | hst <;>
      simp [Storage.cancelDelta, recordDelta, hst, zero_sub, zero_add, neg_neg]
  have hany2 : ¬ (db1.balances.filter (fun b => b.balanceID == tx.balanceID)).any
      (fun b => decide (b.amount + -(recordDelta tx) < 0)) = true := by
    intro hcontra
    rw [List.any_eq_true] at hcontra
    obtain ⟨b, hbmem, hblt⟩ := hcontra
    rw [List.mem_filter] at hbmem
    obtain ⟨hbmem, hbbid⟩ := hbmem
    rw [hbals1, hbalU, List.mem_map] at hbmem
    obtain ⟨b0, hb0, rfl⟩ := hbmem
    rw [decide_eq_true_eq] at hblt
    cases hb0bid : (b0.balanceID == tx.balanceID) with
    | true =>
      rw [hb0bid, if_pos rfl] at hblt
      have hsimp : b0.amount + recordDelta tx + -(recordDelta tx) = b0.amount := by
        ring
      rw [show ({ balanceID := b0.balanceID, amount := b0.amount + recordDelta tx }
          : BalanceRow).amount = b0.amount + recordDelta tx from rfl, hsimp] at hblt
      exact absurd (hinv b0 hb0) (not_le.mpr hblt)
    | false =>
      rw [hb0bid, if_neg (show ¬ false = true from Bool.false_ne_true)] at hbbid
      exact absurd hbbid (by simp [hb0bid])
  have hcnt2 : (db1.balances.filter (fun b => b.balanceID == tx.balanceID)).length
      = c := by
    rw [hbals1, hbalU, length_filter_map_update, hcntU]
  have hu2 : updateBalance db1 tx.balanceID (-(recordDelta tx)) =
      .ok (⟨db1.balances.map (fun b =>
          if b.balanceID == tx.balanceID then
            { b with amount := b.amount + -(recordDelta tx) } else b),
        db1.txs⟩, c) := by
    unfold updateBalance
    rw [if_neg hany2, hcnt2]
  have hcancel := cancelTxs_build db1 now2 tx.balanceID [tx.txID]
    (-(recordDelta tx)) _ c (by rw [htxsby]; exact List.cons_ne_nil _ _) hcd hu2 hc
  refine ⟨_, hcancel, ?_⟩
  have hrow0 : ∃ row0, balanceQuery db tx.balanceID = some row0 := by
    have hfil : db.balances.filter (fun b => b.balanceID == tx.balanceID) ≠ [] := by
      intro hnil
      rw [hnil] at hcntU
      exact hc (by simpa using hcntU)
    obtain ⟨x, hx⟩ := List.exists_mem_of_ne_nil _ hfil
    rw [List.mem_filter] at hx
    have : (db.balances.find? (fun b => b.balanceID == tx.balanceID)).isSome := by
      rw [List.find?_isSome]
      exact ⟨x, hx.1, hx.2⟩
    obtain ⟨row0, hrow0⟩ := Option.isSome_iff_exists.mp this
    exact ⟨row0, hrow0⟩
  obtain ⟨row0, hrow0⟩ := hrow0
  have hq1 : balanceQuery db1 tx.balanceID =
      some { row0 with amount := row0.amount + recordDelta tx } := by
    unfold balanceQuery at hrow0 ⊢
    rw [hbals1, hbalU]
    exact find?_map_update db.balances tx.balanceID (recordDelta tx) row0 hrow0
  have hq2 : balanceQuery (deleteTxs
      (⟨db1.balances.map (fun b =>
          if b.balanceID == tx.balanceID then
            { b with amount := b.amount + -(recordDelta tx) } else b),
        db1.txs⟩ : DB) now2 tx.balanceID [tx.txID]).1 tx.balanceID =
      some { row0 with amount := row0.amount + recordDelta tx + -(recordDelta tx) } := by
    unfold balanceQuery
    rw [deleteTxs_balances]
    exact find?_map_update db1.balances tx.balanceID (-(recordDelta tx))
      { row0 with amount := row0.amount + recordDelta tx } hq1
  unfold balanceOf
  rw [hq2, hrow0]
  have : row0.amount + recordDelta tx + -(recordDelta tx) = row0.amount := by ring
  rw [this]

/-- C4 witness: scenario D shape — record a withdraw of 30 on an account
holding 100, then cancel it; the balance returns to 100. -/
theorem c4_reversibility_witness :
    ∃ db2, Storage.CancelTxs
        ⟨[⟨1, 70⟩], [⟨1, none, 5, 1, Source.game, State.withdraw, 30⟩]⟩
        2 1 [5] = .ok db2 ∧
      balanceOf db2 1 = balanceOf ⟨[⟨1, 100⟩], []⟩ 1 :=
  c4_reversibility ⟨[⟨1, 100⟩], []⟩ 1 2
    ⟨0, none, 5, 1, Source.game, State.withdraw, 30⟩
    ⟨[⟨1, 70⟩], [⟨1, none, 5, 1, Source.game, State.withdraw, 30⟩]⟩
    (by decide) (by decide) (by decide)

/-- Every row returned by the RecentTxs query belongs to the account and is
active unless deleted rows were requested. -/
theorem mem_recentTxs (db : DB) (bid : Nat) (incl : Bool) (limit : Nat)
    (t : Tx) (h : t ∈ Storage.RecentTxs db bid incl limit) :
    t.balanceID = bid ∧ (t.deletedAt = none ∨ incl = true) := by
  unfold Storage.RecentTxs recentTxsQuery at h
  have h1 := List.mem_of_mem_take h
  rw [List.mem_insertionSort, List.mem_filter] at h1
  have hpred := h1.2
  simp only [Bool.and_eq_true, Bool.or_eq_true, beq_iff_eq] at hpred
  exact ⟨hpred.1, hpred.2.imp id id⟩

/-- Every row returned by the PreviousTxs query belongs to the account, is
strictly older than the cursor, and is active unless deleted rows were
requested. -/
theorem mem_previousTxs (db : DB) (bid : Nat) (incl : Bool)
    (before limit : Nat) (t : Tx)
    (h : t ∈ Storage.PreviousTxs db bid incl before limit) :
    t.balanceID = bid ∧ t.txID < before ∧ (t.deletedAt = none ∨ incl = true) := by
  unfold Storage.PreviousTxs previousTxsQuery at h
  have h1 := List.mem_of_mem_take h
  rw [List.mem_insertionSort, List.mem_filter] at h1
  have hpred := h1.2
  simp only [Bool.and_eq_true, Bool.or_eq_true, beq_iff_eq,
    decide_eq_true_eq] at hpred
  exact ⟨hpred.1.1, hpred.1.2, hpred.2.imp id id⟩

/-- C9: RecentTxs returns at most limit transactions, ordered by
transaction identifier descending, all of the requested account and all
active unless includeDeleted is set; PreviousTxs has the same bound,
ordering and filter, additionally restricted to identifiers strictly below
the cursor. -/
theorem c9_recent_previous_ordering (db : DB) (bid : Nat) (incl : Bool)
    (limit before : Nat) :
    (Storage.RecentTxs db bid incl limit).length ≤ limit ∧
    List.Sorted txIdGe (Storage.RecentTxs db bid incl limit) ∧
    (∀ t ∈ Storage.RecentTxs db bid incl limit,
      t.balanceID = bid ∧ (t.deletedAt = none ∨ incl = true)) ∧
    (Storage.PreviousTxs db bid incl before limit).length ≤ limit ∧
    List.Sorted txIdGe (Storage.PreviousTxs db bid incl before limit) ∧
    (∀ t ∈ Storage.PreviousTxs db bid incl before limit,
      t.balanceID = bid ∧ t.txID < before ∧ (t.deletedAt = none ∨ incl = true)) := by
  refine ⟨List.length_take_le _ _, ?_, fun t ht => mem_recentTxs db bid incl limit t ht,
    List.length_take_le _ _, ?_, fun t ht => mem_previousTxs db bid incl before limit t ht⟩
  · exact List.Pairwise.sublist (List.take_sublist _ _)
      (List.sorted_insertionSort txIdGe _)
  · exact List.Pairwise.sublist (List.take_sublist _ _)
      (List.sorted_insertionSort txIdGe _)

/-- C9 witness: on a two-transaction ledger (one cancelled), the
active-only page of size 3 respects the bound, and the returned active
transaction satisfies the filter. -/
theorem c9_recent_previous_ordering_witness :
    (Storage.RecentTxs
        ⟨[⟨1, 100⟩], [⟨1, none, 5, 1, Source.game, State.deposit, 10⟩,
                      ⟨2, some 3, 8, 1, Source.payment, State.deposit, 20⟩]⟩
        1 false 3).length ≤ 3 ∧
      ((⟨1, none, 5, 1, Source.game, State.deposit, 10⟩ : Tx).balanceID = 1 ∧
        ((⟨1, none, 5, 1, Source.game, State.deposit, 10⟩ : Tx).deletedAt = none ∨
          false = true)) :=
  ⟨(c9_recent_previous_ordering
      ⟨[⟨1, 100⟩], [⟨1, none, 5, 1, Source.game, State.deposit, 10⟩,
                    ⟨2, some 3, 8, 1, Source.payment, State.deposit, 20⟩]⟩
      1 false 3 9).1,
    (c9_recent_previous_ordering
      ⟨[⟨1, 100⟩], [⟨1, none, 5, 1, Source.game, State.deposit, 10⟩,
                    ⟨2, some 3, 8, 1, Source.payment, State.deposit, 20⟩]⟩
      1 false 3 9).2.2.1 _ (by decide)⟩

/-- C7 amended: an empty page_token returns the most recent page and a
non-empty one only transactions strictly older than the token; the
next_page_token is the last returned item's id and is empty exactly when
the returned page is empty (not when it is the final one: a non-empty
final page still carries a token, and the client discovers the end by the
follow-up empty page). -/
theorem c7_pagination_amended (db : DB) (req : ListTxRequest) :
    ((Service.ListTx db req).nextPageToken = none ↔
      (Service.ListTx db req).txs = []) ∧
    (req.pageToken = none →
      (Service.ListTx db req).txs =
        Storage.RecentTxs db req.balanceID req.includeDeleted req.pageSize) ∧
    (∀ before, req.pageToken = some before →
      ∀ t ∈ (Service.ListTx db req).txs, t.txID < before) ∧
    (∀ t, (Service.ListTx db req).txs.getLast? = some t →
      (Service.ListTx db req).nextPageToken = some t.txID) := by
  cases hl : (Service.pageTxs db req).getLast? with
  | none =>
    have hnil : Service.pageTxs db req = [] := List.getLast?_eq_none_iff.mp hl
    have he : Service.ListTx db req = ⟨[], none⟩ := by
      unfold Service.ListTx
      rw [hl]
    rw [he]
    refine ⟨by simp, ?_, ?_, ?_⟩
    · intro h0
      have hpg : Service.pageTxs db req =
          Storage.RecentTxs db req.balanceID req.includeDeleted req.pageSize := by
        unfold Service.pageTxs
        rw [h0]
      rw [show (⟨[], none⟩ : ListTxResponse).txs = [] from rfl, ← hpg, hnil]
    · intro before hbef t ht
      exact absurd ht (by simp)
    · intro t ht
      exact absurd ht (by simp)
  | some t0 =>
    have he : Service.ListTx db req = ⟨Service.pageTxs db req, some t0.txID⟩ := by
      unfold Service.ListTx
      rw [hl]
    rw [he]
    refine ⟨?_, ?_, ?_, ?_⟩
    · constructor
      · intro habs
        exact absurd habs (by simp)
      · intro habs
        rw [show (⟨Service.pageTxs db req, some t0.txID⟩ : ListTxResponse).txs =
          Service.pageTxs db req from rfl] at habs
        rw [habs] at hl
        exact absurd hl (by simp)
    · intro h0
      rw [show (⟨Service.pageTxs db req, some t0.txID⟩ : ListTxResponse).txs =
        Service.pageTxs db req from rfl]
      unfold Service.pageTxs
      rw [h0]
    · intro before hbef t ht
      rw [show (⟨Service.pageTxs db req, some t0.txID⟩ : ListTxResponse).txs =
        Service.pageTxs db req from rfl] at ht
      have hpg : Service.pageTxs db req =
          Storage.PreviousTxs db req.balanceID req.includeDeleted before
            req.pageSize := by
        unfold Service.pageTxs
        rw [hbef]
      rw [hpg] at ht
      exact (mem_previousTxs db req.balanceID req.includeDeleted before
        req.pageSize t ht).2.1
    · intro t ht
      rw [show (⟨Service.pageTxs db req, some t0.txID⟩ : ListTxResponse).txs =
        Service.pageTxs db req from rfl, hl, Option.some.injEq] at ht
      subst ht
      rfl

/-- C7 witness: on a single-transaction ledger the first page is returned
with the token equal to the only item's id, the token is non-empty because
the page is non-empty, and a subsequent page before id 10 is empty with an
empty token. -/
theorem c7_pagination_amended_witness :
    ((Service.ListTx
        ⟨[⟨1, 100⟩], [⟨1, none, 10, 1, Source.game, State.deposit, 5⟩]⟩
        ⟨1, 5, none, false⟩).nextPageToken = none ↔
      (Service.ListTx
        ⟨[⟨1, 100⟩], [⟨1, none, 10, 1, Source.game, State.deposit, 5⟩]⟩
        ⟨1, 5, none, false⟩).txs = []) ∧
    (Service.ListTx
        ⟨[⟨1, 100⟩], [⟨1, none, 10, 1, Source.game, State.deposit, 5⟩]⟩
        ⟨1, 5, none, false⟩).txs =
      Storage.RecentTxs
        ⟨[⟨1, 100⟩], [⟨1, none, 10, 1, Source.game, State.deposit, 5⟩]⟩
        1 false 5 :=
  ⟨(c7_pagination_amended
      ⟨[⟨1, 100⟩], [⟨1, none, 10, 1, Source.game, State.deposit, 5⟩]⟩
      ⟨1, 5, none, false⟩).1,
    (c7_pagination_amended
      ⟨[⟨1, 100⟩], [⟨1, none, 10, 1, Source.game, State.deposit, 5⟩]⟩
      ⟨1, 5, none, false⟩).2.1 rfl⟩

/-- C3 amended: after a successful RecordTx, recording the exact same
transaction again always fails and leaves the balance and the ledger
exactly as they were after the first call (exactly one balance effect); the
failure is AlreadyExists from the tx_id uniqueness constraint unless
re-applying the delta would drive the updated balance negative, in which
case the balance check fires first and the failure is NegativeBalance. -/
theorem c3_exactly_once_amended (db : DB) (now1 now2 : Nat) (tx : Tx)
    (db1 : DB) (h : Storage.RecordTx db now1 tx = .ok db1) :
    (∃ e, Storage.RecordTx db1 now2 tx = .error e ∧
      (e = StorageErr.alreadyExists ∨ e = StorageErr.negativeBalance)) ∧
    (Storage.RecordTx db1 now2 tx = .error .negativeBalance ↔
      ∃ b ∈ db1.balances, b.balanceID = tx.balanceID ∧
        b.amount + recordDelta tx < 0) ∧
    afterOp db1 (Storage.RecordTx db1 now2 tx) = db1 := by
  obtain ⟨dbU, c, hu, hc, hi⟩ := recordTx_ok_destruct db now1 tx db1 h
  obtain ⟨hbalU, htxsU, hcntU, hposU⟩ :=
    updateBalance_ok db tx.balanceID (recordDelta tx) dbU c hu
  obtain ⟨hbals1, htxs1, hfresh⟩ := insertTx_ok dbU now1 (TxToPgx tx) db1 hi
  by_cases hneg : ∃ b ∈ db1.balances, b.balanceID = tx.balanceID ∧
      b.amount + recordDelta tx < 0
  · obtain ⟨e, he⟩ :=
      (updateBalance_error_iff db1 tx.balanceID (recordDelta tx)).mpr hneg
    have hck := updateBalance_error_check db1 tx.balanceID (recordDelta tx) e he
    subst hck
    have hs : Storage.RecordTx db1 now2 tx = .error .negativeBalance := by
      unfold Storage.RecordTx
      rw [he]
    exact ⟨⟨_, hs, Or.inr rfl⟩, ⟨fun _ => hneg, fun _ => hs⟩, by rw [hs]; rfl⟩
  · have hany : ¬ (db1.balances.filter (fun b => b.balanceID == tx.balanceID)).any
        (fun b => decide (b.amount + recordDelta tx < 0)) = true := by
      intro hcontra
      apply hneg
      rw [List.any_eq_true] at hcontra
      obtain ⟨b, hb, hlt⟩ := hcontra
      rw [List.mem_filter] at hb
      exact ⟨b, hb.1, by simpa using hb.2, by simpa using hlt⟩
    have hcnt1 : (db1.balances.filter
        (fun b => b.balanceID == tx.balanceID)).length = c := by
      rw [hbals1, hbalU, length_filter_map_update, hcntU]
    have hu2 : updateBalance db1 tx.balanceID (recordDelta tx) =
        .ok (⟨db1.balances.map (fun b =>
            if b.balanceID == tx.balanceID then
              { b with amount := b.amount + recordDelta tx } else b),
          db1.txs⟩, c) := by
      unfold updateBalance
      rw [if_neg hany, hcnt1]
    have hdup : insertTx (⟨db1.balances.map (fun b =>
          if b.balanceID == tx.balanceID then
            { b with amount := b.amount + recordDelta tx } else b),
        db1.txs⟩ : DB) now2 (TxToPgx tx) = .error .uniqueViolation := by
      refine insertTx_dup _ now2 (TxToPgx tx)
        { createdAt := now1, deletedAt := none, txID := (TxToPgx tx).txID,
          balanceID := (TxToPgx tx).balanceID, source := (TxToPgx tx).source,
          state := (TxToPgx tx).state, amount := (TxToPgx tx).amount } ?_ rfl
      rw [show (⟨db1.balances.map (fun b =>
          if b.balanceID == tx.balanceID then
            { b with amount := b.amount + recordDelta tx } else b),
        db1.txs⟩ : DB).txs = db1.txs from rfl, htxs1]
      exact List.mem_append_right _ (List.mem_singleton_self _)
    have hs : Storage.RecordTx db1 now2 tx = .error .alreadyExists := by
      unfold Storage.RecordTx
      simp only [hu2]
      rw [if_neg (show ¬ (c == 0) = true by simp [hc])]
      simp only [hdup]
    refine ⟨⟨_, hs, Or.inl rfl⟩, ?_, by rw [hs]; rfl⟩
    constructor
    · intro habs
      rw [hs] at habs
      exact absurd habs (by simp)
    · intro habs
      exact absurd habs hneg

/-- C3 amended witness: recording a deposit of 30 on an account holding
100 succeeds; recording the same transaction again fails (here with
AlreadyExists), the failure is not NegativeBalance since the re-applied
delta stays non-negative, and the state after the retry equals the state
after the first call. -/
theorem c3_exactly_once_amended_witness :
    (∃ e, Storage.RecordTx
        ⟨[⟨1, 130⟩], [⟨1, none, 5, 1, Source.game, State.deposit, 30⟩]⟩ 2
        ⟨0, none, 5, 1, Source.game, State.deposit, 30⟩ = .error e ∧
      (e = StorageErr.alreadyExists ∨ e = StorageErr.negativeBalance)) ∧
    (Storage.RecordTx
        ⟨[⟨1, 130⟩], [⟨1, none, 5, 1, Source.game, State.deposit, 30⟩]⟩ 2
        ⟨0, none, 5, 1, Source.game, State.deposit, 30⟩ =
        .error .negativeBalance ↔
      ∃ b ∈ ([⟨1, 130⟩] : List BalanceRow), b.balanceID =
          (⟨0, none, 5, 1, Source.game, State.deposit, 30⟩ : Tx).balanceID ∧
        b.amount + recordDelta ⟨0, none, 5, 1, Source.game, State.deposit, 30⟩ < 0) ∧
    afterOp ⟨[⟨1, 130⟩], [⟨1, none, 5, 1, Source.game, State.deposit, 30⟩]⟩
        (Storage.RecordTx
          ⟨[⟨1, 130⟩], [⟨1, none, 5, 1, Source.game, State.deposit, 30⟩]⟩ 2
          ⟨0, none, 5, 1, Source.game, State.deposit, 30⟩) =
      ⟨[⟨1, 130⟩], [⟨1, none, 5, 1, Source.game, State.deposit, 30⟩]⟩ :=
  c3_exactly_once_amended ⟨[⟨1, 100⟩], []⟩ 1 2
    ⟨0, none, 5, 1, Source.game, State.deposit, 30⟩
    ⟨[⟨1, 130⟩], [⟨1, none, 5, 1, Source.game, State.deposit, 30⟩]⟩ (by decide)

/-- C6 amended: the boundary stores the amount exactly as parsed from the
wire decimal string, whatever its sign — only unparseable strings are
rejected; there is no positivity check anywhere between the wire and the
ledger row. -/
theorem c6_amount_stored_asis (req : RecordTxRequest) (tx : Tx)
    (h : TxFromProto req = some (.ok tx)) :
    ∃ a, req.amount = some a ∧ parseDecimal a.value = some tx.amount := by
  unfold TxFromProto at h
  split at h
  · exact absurd h (by simp)
  · split at h
    · exact absurd h (by simp)
    · split at h
      · exact absurd h (by simp)
      · rename_i balanceID hbid
        split at h
        · exact absurd h (by simp)
        · rename_i txID htid
          split at h
          · exact absurd h (by simp)
          · rename_i a ha
            split at h
            · exact absurd h (by simp)
            · rename_i amt hamt
              rw [Option.some.injEq, Except.ok.injEq] at h
              refine ⟨a, ha, ?_⟩
              rw [hamt, ← h]

/-- C6 amended witness: the request carrying the amount string -50 maps to
a transaction whose stored amount is exactly the parsed -50. -/
theorem c6_amount_stored_asis_witness :
    ∃ a, (⟨"1", "9", 1, 1, some ⟨"-50"⟩⟩ : RecordTxRequest).amount = some a ∧
      parseDecimal a.value =
        some ((⟨0, none, 9, 1, Source.game, State.deposit, -50⟩ : Tx).amount) :=
  c6_amount_stored_asis ⟨"1", "9", 1, 1, some ⟨"-50"⟩⟩
    ⟨0, none, 9, 1, Source.game, State.deposit, -50⟩ (by decide)
